import Mathlib

/-!
Verification of the radiant-mlhub catalog download pipeline against its
natural-language specification.  Datetimes are modelled as integers (any
linearly ordered, decidable time scale works; `dateutil` datetimes compare
totally).  Stateful code is embedded as explicit state passing; fallible
code returns `Except`/`Option` values.
-/

/-! ## IntervalMath: `radiant_mlhub/client/datetime_utils.py` -/

/-- Embeds `one_to_one_check(d1, d2)`: compare two dates for equality. -/
def one_to_one_check (d1 d2 : Int) : Bool :=
  d1 == d2

/-- Embeds `one_to_range_check(d1, d2)`: overlap of a single datetime with a
date range, `d1 >= d2_start and d1 <= d2_end`. -/
def one_to_range_check (d1 : Int) (d2 : Int × Int) : Bool :=
  decide (d1 ≥ d2.1) && decide (d1 ≤ d2.2)

/-- Embeds `range_to_range_check(d1, d2)`: overlap of two date ranges.
Mirrors the source's two `if` statements followed by `return False`. -/
def range_to_range_check (d1 : Int × Int) (d2 : Int × Int) : Bool :=
  if d1.1 ≥ d2.1 ∧ d1.1 ≤ d2.2 then true
  else if d1.2 ≥ d2.1 ∧ d1.1 ≤ d2.2 then true
  else false

/-- Unfolding of `range_to_range_check` into the disjunction its two `if`
statements test. -/
theorem range_to_range_check_eq_true_iff (a b c d : Int) :
    range_to_range_check (a, b) (c, d) = true ↔
      ((a ≥ c ∧ a ≤ d) ∨ (b ≥ c ∧ a ≤ d)) := by
  unfold range_to_range_check
  dsimp only
  split_ifs with h1 h2 <;> simp_all

/-- Claim C1: for well-formed closed intervals (start ≤ end on both sides),
`range_to_range_check` returns true iff `d1_start <= d2_end` and
`d2_start <= d1_end`; in particular it is symmetric. -/
theorem c1_range_to_range_overlap (a b c d : Int) (h1 : a ≤ b) (h2 : c ≤ d) :
    (range_to_range_check (a, b) (c, d) = true ↔ (a ≤ d ∧ c ≤ b)) ∧
      range_to_range_check (a, b) (c, d) = range_to_range_check (c, d) (a, b) := by
  constructor
  · rw [range_to_range_check_eq_true_iff]
    constructor
    · intro h; omega
    · intro h; omega
  · rw [Bool.eq_iff_iff, range_to_range_check_eq_true_iff,
      range_to_range_check_eq_true_iff]
    omega

/-- Concrete instance of C1: the intervals [1,3] and [2,5] overlap and the
check is symmetric there. -/
theorem c1_range_to_range_overlap_witness :
    (range_to_range_check (1, 3) (2, 5) = true ↔ ((1:Int) ≤ 5 ∧ (2:Int) ≤ 3)) ∧
      range_to_range_check (1, 3) (2, 5) = range_to_range_check (2, 5) (1, 3) :=
  c1_range_to_range_overlap 1 3 2 5 (by decide) (by decide)

/-! ## ResumableTransfer: `radiant_mlhub/client/resumable_downloader.py`

The downloader's filesystem state is the destination file's bytes and the
sibling `.md5` checksum file's (hex-decoded) bytes, each `none` when the
file does not exist.  The network is a function from the issued request
(the optional `Range` start offset) to an HTTP response; the md5 digest is
an explicit function parameter so `validate` stays executable. -/

/-- Embeds `radiant_mlhub.if_exists.DownloadIfExistsOpts`. -/
inductive DownloadIfExistsOpts
  | skip
  | overwrite
  | resume
deriving DecidableEq, Repr

/-- Filesystem state seen by `ResumableDownloader`: the destination file's
content and the stored expected checksum, `none` when absent. -/
structure DlState where
  outFileContent : Option (List Nat)
  checksumFileContent : Option (List Nat)
deriving DecidableEq, Repr

/-- HTTP response as read by `ResumableDownloader.run`: status code,
whether `accept-ranges` contains `bytes`, the total from `content-range`,
the `content-length` value, the decoded `content-md5` header, and the
streamed body bytes. -/
structure HttpResponse where
  status : Nat
  acceptRangesBytes : Bool
  contentRangeTotal : Option Nat
  contentLength : Option Nat
  contentMd5 : Option (List Nat)
  body : List Nat
deriving DecidableEq, Repr

/-- Exceptions `ResumableDownloader.run` can raise. -/
inductive DlError
  | cannotSkipInvalid
  | httpStatusError (code : Nat)
  | rangeNotSupported
  | unexpectedStatusCode
  | missingContentRange
  | missingContentLength
  | checksumValidationFailed
  | finalValidationFailed
deriving DecidableEq, Repr

/-- Result of one `run` invocation: the request issued (`none` when no
network request was made, otherwise `some` of the optional range start),
the final filesystem state, and the raised exception if any. -/
structure RunOutcome where
  request : Option (Option Nat)
  finalState : DlState
  error : Option DlError
deriving DecidableEq, Repr

namespace ResumableDownloader

/-- Embeds `ResumableDownloader.validate`: false when md5 checking is off,
the destination is missing, or the `.md5` file is missing; otherwise
compares the digest of the file bytes with the stored expected checksum. -/
def validate (hash : List Nat → List Nat) (md5Check : Bool) (st : DlState) : Bool :=
  if !md5Check then false
  else
    match st.outFileContent with
    | none => false
    | some content =>
      match st.checksumFileContent with
      | none => false
      | some expect => hash content == expect

/-- Embeds the body of `ResumableDownloader.run` from `open(..., mode='ab')`
onward: issue the request (with a `Range` header when the existing file is
non-empty), check status and range support, read the declared total size,
persist a `content-md5` checksum if present, then either skip the transfer
(`pos >= content_len`, re-validating when md5 checking is on) or append the
body and run the final validation. -/
def runTransfer (hash : List Nat → List Nat) (md5Check : Bool) (st : DlState)
    (server : Option Nat → HttpResponse) : RunOutcome :=
  let content := st.outFileContent.getD []
  let st0 : DlState := { st with outFileContent := some content }
  let pos := content.length
  let req : Option Nat := if pos > 0 then some pos else none
  let r := server req
  if r.status ≥ 400 then
    ⟨some req, st0, some (.httpStatusError r.status)⟩
  else if !r.acceptRangesBytes then
    ⟨some req, st0, some .rangeNotSupported⟩
  else if req.isSome ∧ r.status ≠ 206 then
    ⟨some req, st0, some .unexpectedStatusCode⟩
  else
    let contentLen? : Except DlError Nat :=
      if pos > 0 then
        match r.contentRangeTotal with
        | some t => .ok t
        | none => .error .missingContentRange
      else
        match r.contentLength with
        | some t => .ok t
        | none => .error .missingContentLength
    match contentLen? with
    | .error e => ⟨some req, st0, some e⟩
    | .ok contentLen =>
      let st1 : DlState :=
        match r.contentMd5 with
        | some cs => { st0 with checksumFileContent := some cs }
        | none => st0
      if pos ≥ contentLen then
        if md5Check then
          if validate hash md5Check st1 then ⟨some req, st1, none⟩
          else ⟨some req, st1, some .checksumValidationFailed⟩
        else ⟨some req, st1, none⟩
      else
        let st2 : DlState := { st1 with outFileContent := some (content ++ r.body) }
        if md5Check ∧ !(validate hash md5Check st2) then
          ⟨some req, st2, some .finalValidationFailed⟩
        else ⟨some req, st2, none⟩

/-- Embeds `ResumableDownloader.run`: the existing-file policy prologue
(overwrite unlinks; otherwise a validated file returns early with no
request; an invalid file under `skip` raises; `resume` falls through),
then the transfer body `runTransfer`. -/
def run (hash : List Nat → List Nat) (md5Check : Bool)
    (ifExists : DownloadIfExistsOpts) (st : DlState)
    (server : Option Nat → HttpResponse) : RunOutcome :=
  match st.outFileContent with
  | some _ =>
    if ifExists = .overwrite then
      runTransfer hash md5Check { st with outFileContent := none } server
    else if validate hash md5Check st then
      ⟨none, st, none⟩
    else if ifExists = .skip then
      ⟨none, st, some .cannotSkipInvalid⟩
    else
      runTransfer hash md5Check st server
  | none => runTransfer hash md5Check st server

end ResumableDownloader

/-- Claim C2 counterexample: destination exists, policy is `skip`, and md5
checking is disabled (so `validate` returns false); `run` raises
`RuntimeError('... exists but is invalid -> cannot skip')` instead of
returning without error. -/
theorem c2_skip_counterexample :
    (ResumableDownloader.run id false .skip ⟨some [1], none⟩
        (fun _ => ⟨200, true, none, some 1, none, [1]⟩)).error =
      some .cannotSkipInvalid := by
  decide

/-- Claim C2 amended: when the destination exists and the policy is `skip`,
`run` never issues a network request and leaves the filesystem state
unchanged; it returns without error exactly when the existing file
validates against its stored checksum, and otherwise raises a
`RuntimeError`. -/
theorem c2_skip_behavior (hash : List Nat → List Nat) (md5Check : Bool)
    (st : DlState) (server : Option Nat → HttpResponse) (c : List Nat)
    (h : st.outFileContent = some c) :
    (ResumableDownloader.run hash md5Check .skip st server).request = none ∧
    (ResumableDownloader.run hash md5Check .skip st server).finalState = st ∧
    (ResumableDownloader.run hash md5Check .skip st server).error =
      (if ResumableDownloader.validate hash md5Check st then none
       else some .cannotSkipInvalid) := by
  unfold ResumableDownloader.run
  rw [h]
  simp only [reduceCtorEq, if_false]
  by_cases hv : ResumableDownloader.validate hash md5Check st
  · simp [hv]
  · simp [hv]

/-- Concrete instance of C2 amended: an existing file with a matching
stored checksum under `skip` yields no request, no change, no error. -/
theorem c2_skip_behavior_witness :
    (ResumableDownloader.run id true .skip ⟨some [7], some [7]⟩
        (fun _ => ⟨200, true, none, some 1, none, [7]⟩)).request = none ∧
    (ResumableDownloader.run id true .skip ⟨some [7], some [7]⟩
        (fun _ => ⟨200, true, none, some 1, none, [7]⟩)).finalState =
      ⟨some [7], some [7]⟩ ∧
    (ResumableDownloader.run id true .skip ⟨some [7], some [7]⟩
        (fun _ => ⟨200, true, none, some 1, none, [7]⟩)).error =
      (if ResumableDownloader.validate id true ⟨some [7], some [7]⟩ then none
       else some .cannotSkipInvalid) :=
  c2_skip_behavior id true ⟨some [7], some [7]⟩
    (fun _ => ⟨200, true, none, some 1, none, [7]⟩) [7] rfl

/-- Claim C3 counterexample: policy `resume`, existing file of 3 bytes, and
a server declaring a total size of 2 (`pos` exceeds the declared total);
with md5 checking disabled `run` returns without any error instead of
failing with a fatal consistency error. -/
theorem c3_resume_counterexample :
    (ResumableDownloader.run id false .resume ⟨some [1, 2, 3], none⟩
        (fun _ => ⟨206, true, some 2, some 2, none, []⟩)).error = none ∧
    (ResumableDownloader.run id false .resume ⟨some [1, 2, 3], none⟩
        (fun _ => ⟨206, true, some 2, some 2, none, []⟩)).request =
      some (some 3) := by
  constructor <;> decide

/-- Claim C3 amended: under policy `resume` with an existing non-empty
destination of size `pos` that does not validate against a stored checksum,
`run` issues one request whose `Range` header starts at `pos`; whenever the
server's declared total size (from `content-range`) is at most `pos`, no
body bytes are appended, the call succeeds when md5 checking is disabled,
and in general the only possible failure is checksum validation — the size
inconsistency `pos > total` itself raises no error. -/
theorem c3_resume_behavior (hash : List Nat → List Nat) (md5Check : Bool)
    (st : DlState) (server : Option Nat → HttpResponse) (c : List Nat) (t : Nat)
    (h1 : st.outFileContent = some c) (h2 : c ≠ [])
    (h3 : ResumableDownloader.validate hash md5Check st = false)
    (h4 : (server (some c.length)).status = 206)
    (h5 : (server (some c.length)).acceptRangesBytes = true)
    (h6 : (server (some c.length)).contentRangeTotal = some t)
    (h7 : t ≤ c.length) :
    (ResumableDownloader.run hash md5Check .resume st server).request =
      some (some c.length) ∧
    (ResumableDownloader.run hash md5Check .resume st server).finalState.outFileContent =
      some c ∧
    (md5Check = false →
      (ResumableDownloader.run hash md5Check .resume st server).error = none) ∧
    ((ResumableDownloader.run hash md5Check .resume st server).error = none ∨
      (ResumableDownloader.run hash md5Check .resume st server).error =
        some .checksumValidationFailed) := by
  obtain ⟨out, chk⟩ := st
  replace h1 : out = some c := h1
  subst h1
  have hpos : 0 < c.length := List.length_pos.mpr h2
  have h400 : ¬((206 : Nat) ≥ 400) := by omega
  have h206 : ¬((some c.length).isSome = true ∧ (206 : Nat) ≠ 206) := by simp
  unfold ResumableDownloader.run ResumableDownloader.runTransfer
  simp only [reduceCtorEq, if_false, h3, Bool.false_eq_true, Option.getD_some,
    gt_iff_lt, hpos, if_true, h4, h5, h6, Bool.not_true, if_neg h400, if_neg h206]
  rw [if_pos (ge_iff_le.mpr h7)]
  cases hmd5 : (server (some c.length)).contentMd5 with
  | none =>
    simp only [hmd5]
    cases md5Check with
    | false => simp
    | true =>
      by_cases hv : ResumableDownloader.validate hash true ⟨some c, chk⟩ = true
      · simp [hv]
      · simp [hv]
  | some cs =>
    simp only [hmd5]
    cases md5Check with
    | false => simp
    | true =>
      by_cases hv : ResumableDownloader.validate hash true ⟨some c, some cs⟩ = true
      · simp [hv]
      · simp [hv]

/-- Concrete instance of C3 amended: resuming a 1-byte file whose declared
total is also 1 issues one range request at offset 1, appends nothing and
succeeds. -/
theorem c3_resume_behavior_witness :
    (ResumableDownloader.run id false .resume ⟨some [5], none⟩
        (fun _ => ⟨206, true, some 1, some 1, none, []⟩)).request =
      some (some 1) ∧
    (ResumableDownloader.run id false .resume ⟨some [5], none⟩
        (fun _ => ⟨206, true, some 1, some 1, none, []⟩)).finalState.outFileContent =
      some [5] ∧
    (ResumableDownloader.run id false .resume ⟨some [5], none⟩
        (fun _ => ⟨206, true, some 1, some 1, none, []⟩)).error = none := by
  have h := c3_resume_behavior id false ⟨some [5], none⟩
    (fun _ => ⟨206, true, some 1, some 1, none, []⟩) [5] 1
    rfl (by decide) rfl rfl rfl rfl (by decide)
  exact ⟨h.1, h.2.1, h.2.2.1 rfl⟩

/-! ## AssetIndex and FilterPipeline: `radiant_mlhub/client/catalog_downloader.py`

The sqlite `assets` table is modelled as a list of records; rowids are the
positions in the list (the table is created fresh per run and rows are
inserted sequentially, so sqlite rowids are exactly the insertion order).
Datetime `TEXT` columns are modelled as `Option Int` (already-parsed
instants); `bbox_json` stays an uninterpreted `Option String`. -/

/-- Embeds the `AssetRecord` row shape of the `assets` table. -/
structure AssetRec where
  collectionId : String
  itemId : Option String
  assetKey : String
  assetUrl : String
  assetSavePath : String
  commonAsset : Bool
  bboxJson : Option String
  singleDatetime : Option Int
  startDatetime : Option Int
  endDatetime : Option Int
  filtered : Bool
deriving DecidableEq, Repr

/-- Lookup in the `collection_filter` dict, modelled as an association
list: `f[collection_id]` when `collection_id in f`. -/
def filterLookup (f : List (String × List String)) (cid : String) :
    Option (List String) :=
  (f.find? (fun kv => kv.1 == cid)).map (fun kv => kv.2)

/-- Embeds the per-row decision of `_filter_collections_step`: start from
`filtered = True`; clear it when the collection id is a filter key and the
key list is empty, or when the asset key appears in the key list. -/
def rowFiltered (f : List (String × List String)) (cid key : String) : Bool :=
  match filterLookup f cid with
  | none => true
  | some ks =>
    if ks.isEmpty then false
    else if ks.contains key then false
    else true

/-- Embeds the early-out at the top of `_handle_collection`: a
collection-level asset record is inserted unless a non-empty
`collection_filter` is configured that does not contain the collection. -/
def collectionInserted (f : Option (List (String × List String)))
    (cid : String) : Bool :=
  match f with
  | none => true
  | some fl =>
    if ¬fl.isEmpty ∧ filterLookup fl cid = none then false else true

/-- Embeds `_mark_assets_filtered`, recursing with the explicit rowid of
the head record.  The generated SQL is
`UPDATE assets SET filtered = 1 WHERE rowid in ( id,id,... )`; sqlite
(unlike SQL92) also accepts the empty list `in (  )`, which matches no
row, so an empty id set is a no-op rather than an error. -/
def markAssetsFilteredFrom (rowIds : List Nat) (i : Nat) :
    List AssetRec → List AssetRec
  | [] => []
  | r :: rs =>
    (if rowIds.contains i then { r with filtered := true } else r) ::
      markAssetsFilteredFrom rowIds (i + 1) rs

/-- Embeds `_mark_assets_filtered` on the whole table (rowids start at the
head of the list). -/
def markAssetsFiltered (rowIds : List Nat) (assets : List AssetRec) :
    List AssetRec :=
  markAssetsFilteredFrom rowIds 0 assets

/-- Embeds `_fetch_unfiltered_count`:
`SELECT COUNT(DISTINCT asset_save_path) FROM assets WHERE filtered = 0`. -/
def fetchUnfilteredCount (assets : List AssetRec) : Nat :=
  (((assets.filter (fun r => r.filtered = false)).map
      (fun r => r.assetSavePath)).dedup).length

/-- Embeds the scan loop of `_filter_collections_step`: rows selected by
`WHERE filtered = 0 AND item_id IS NOT NULL`, collecting the rowids whose
per-row decision is `filtered`. -/
def collectionScanIdsFrom (f : List (String × List String)) (i : Nat) :
    List AssetRec → List Nat
  | [] => []
  | r :: rs =>
    let rest := collectionScanIdsFrom f (i + 1) rs
    if r.filtered = false ∧ r.itemId.isSome then
      if rowFiltered f r.collectionId r.assetKey then i :: rest else rest
    else rest

/-- Scan of `_filter_collections_step` on the whole table. -/
def collectionScanIds (f : List (String × List String))
    (assets : List AssetRec) : List Nat :=
  collectionScanIdsFrom f 0 assets

/-- Names of the four filter stages, used in the zero-assets error. -/
inductive StageName
  | collections
  | temporal
  | bbox
  | intersects
deriving DecidableEq, Repr

/-- Message text of the `RuntimeError` each stage raises when zero assets
remain after its batched update (the source interpolates a stale `filter`
binding at the end of each message; omitted here). -/
def stageErrorMessage : StageName → String
  | .collections => "after filtering collections_ids and asset keys, zero assets to download"
  | .temporal => "after filtering by temporal query, zero assets to download"
  | .bbox => "after filtering by bounding box, zero assets to download"
  | .intersects => "after filtering by intersects, zero assets to download"

/-- Exceptions the filter stages can raise: the zero-assets
`RuntimeError` naming the stage, or the `TypeError` out of
`dateutil.parser.parse(None)` in the temporal scan. -/
inductive StageError
  | zeroAssets (stage : StageName)
  | typeError
deriving DecidableEq, Repr

/-- Embeds `_filter_collections_step`: no-op when `collection_filter` is
`None`; otherwise scan, batch-update, and raise when zero unfiltered
assets remain. -/
def filterCollectionsStep (f : Option (List (String × List String)))
    (assets : List AssetRec) : Except StageError (List AssetRec) :=
  match f with
  | none => .ok assets
  | some fl =>
    let out := markAssetsFiltered (collectionScanIds fl assets) assets
    if fetchUnfilteredCount out = 0 then .error (.zeroAssets .collections)
    else .ok out

/-- Temporal query configuration: either a single instant or a
`(start, end)` tuple (the source distinguishes them via
`isinstance(q, tuple)`). -/
inductive TQuery
  | instant (t : Int)
  | range (s e : Int)
deriving DecidableEq, Repr

/-- Embeds `dateutil.parser.parse` as applied to a nullable column value:
parsing `None` raises `TypeError` (dateutil rejects non-string input). -/
def dateutilParse (d : Option Int) : Except StageError Int :=
  match d with
  | none => .error .typeError
  | some v => .ok v

/-- Embeds the per-row body of the `_filter_temporal_step` scan loop,
returning the `filtered` decision for the row or the raised exception.
When `single_datetime` is absent the source parses `start_datetime` and
`end_datetime` before its `if not start or not end` null-guard, so that
guard can never fire: parsed `datetime` objects are always truthy and
`dateutilParse` has already raised on `None`. -/
def temporalRowCheck (q : TQuery) (singleD startD endD : Option Int) :
    Except StageError Bool :=
  match singleD with
  | some s =>
    match q with
    | .range qs qe => .ok (!(one_to_range_check s (qs, qe)))
    | .instant qi => .ok (!(one_to_one_check s qi))
  | none =>
    match dateutilParse startD with
    | .error e => .error e
    | .ok start =>
      match dateutilParse endD with
      | .error e => .error e
      | .ok stop =>
        match q with
        | .range qs qe => .ok (!(range_to_range_check (start, stop) (qs, qe)))
        | .instant qi => .ok (!(one_to_range_check qi (start, stop)))

/-- Embeds the scan loop of `_filter_temporal_step`: rows selected by
`WHERE filtered = 0 and item_id IS NOT NULL`; the first raised exception
aborts the scan before any update happens. -/
def temporalScanIdsFrom (q : TQuery) (i : Nat) :
    List AssetRec → Except StageError (List Nat)
  | [] => .ok []
  | r :: rs =>
    if r.filtered = false ∧ r.itemId.isSome then
      match temporalRowCheck q r.singleDatetime r.startDatetime r.endDatetime with
      | .error e => .error e
      | .ok dropped =>
        match temporalScanIdsFrom q (i + 1) rs with
        | .error e => .error e
        | .ok rest => .ok (if dropped then i :: rest else rest)
    else temporalScanIdsFrom q (i + 1) rs

/-- Scan of `_filter_temporal_step` on the whole table. -/
def temporalScanIds (q : TQuery) (assets : List AssetRec) :
    Except StageError (List Nat) :=
  temporalScanIdsFrom q 0 assets

/-- Embeds `_filter_temporal_step`: no-op when `temporal_query` is `None`;
otherwise scan (propagating any raised exception), batch-update, and raise
when zero unfiltered assets remain. -/
def filterTemporalStep (q : Option TQuery) (assets : List AssetRec) :
    Except StageError (List AssetRec) :=
  match q with
  | none => .ok assets
  | some tq =>
    match temporalScanIds tq assets with
    | .error e => .error e
    | .ok ids =>
      let out := markAssetsFiltered ids assets
      if fetchUnfilteredCount out = 0 then .error (.zeroAssets .temporal)
      else .ok out

/-- Embeds the shared scan loop of `_filter_bbox_step` and
`_filter_intersects_step`: rows selected by
`WHERE filtered = 0 AND item_id IS NOT NULL`; rows whose `bbox_json` is
null are skipped with a warning; otherwise the spatial intersection test
`hit` is applied to the bbox JSON (the per-item hit cache of the source
memoizes this pure computation and does not change its result). -/
def spatialScanIdsFrom (hit : String → Bool) (i : Nat) :
    List AssetRec → List Nat
  | [] => []
  | r :: rs =>
    let rest := spatialScanIdsFrom hit (i + 1) rs
    if r.filtered = false ∧ r.itemId.isSome then
      match r.bboxJson with
      | none => rest
      | some b => if hit b then rest else i :: rest
    else rest

/-- Spatial scan on the whole table. -/
def spatialScanIds (hit : String → Bool) (assets : List AssetRec) : List Nat :=
  spatialScanIdsFrom hit 0 assets

/-- Embeds `_filter_bbox_step`: no-op when `bbox` is `None`; otherwise the
spatial scan with `hit = box(*config.bbox).intersects(box(*bbox))`
(the geometric predicate itself is kept abstract), batch-update, and the
zero-assets check. -/
def filterBboxStep (hit : Option (String → Bool)) (assets : List AssetRec) :
    Except StageError (List AssetRec) :=
  match hit with
  | none => .ok assets
  | some h =>
    let out := markAssetsFiltered (spatialScanIds h assets) assets
    if fetchUnfilteredCount out = 0 then .error (.zeroAssets .bbox)
    else .ok out

/-- Embeds `_filter_intersects_step`: identical to the bbox stage except
the spatial predicate compares against the configured geojson shape and
the zero-assets error names the intersects stage. -/
def filterIntersectsStep (hit : Option (String → Bool))
    (assets : List AssetRec) : Except StageError (List AssetRec) :=
  match hit with
  | none => .ok assets
  | some h =>
    let out := markAssetsFiltered (spatialScanIds h assets) assets
    if fetchUnfilteredCount out = 0 then .error (.zeroAssets .intersects)
    else .ok out

/-! ## DownloadAssets and error reporting -/

/-- Embeds the asset-list construction at the top of
`_asset_download_step`: rows selected by `WHERE filtered = 0`, keeping the
first record for each distinct `asset_save_path`. -/
def buildAssetListAux (seen : List String) : List AssetRec → List AssetRec
  | [] => []
  | r :: rs =>
    if seen.contains r.assetSavePath then buildAssetListAux seen rs
    else r :: buildAssetListAux (r.assetSavePath :: seen) rs

/-- The deduplicated download work list of `_asset_download_step`. -/
def buildAssetList (assets : List AssetRec) : List AssetRec :=
  buildAssetListAux [] (assets.filter (fun r => r.filtered = false))

/-- One row of `err_report.csv`, as written by `_asset_download_step`:
`(error text, dataset id, collection id, item id, asset key, asset url)`. -/
structure ErrRow where
  error : String
  datasetId : String
  collectionId : String
  itemId : Option String
  assetKey : String
  assetUrl : String
deriving DecidableEq, Repr

/-- Embeds the error-collection loop of `_asset_download_step`: each
worker's outcome is `none` on success or `some` exception text on failure;
every failure is caught and appended as one `err_report` row and never
stops the iteration over the remaining futures. -/
def assetDownloadErrors (datasetId : String) (outcome : AssetRec → Option String) :
    List AssetRec → List ErrRow
  | [] => []
  | a :: rest =>
    match outcome a with
    | some e =>
      ⟨e, datasetId, a.collectionId, a.itemId, a.assetKey, a.assetUrl⟩ ::
        assetDownloadErrors datasetId outcome rest
    | none => assetDownloadErrors datasetId outcome rest

/-- Embeds the epilogue of `CatalogDownloader.__call__`: the error report
file was opened with mode `'w'` (truncated), each logged row is non-empty
text, so `os.path.getsize(err_report_path) > 0` holds exactly when at
least one row was written; in that case an `IOError` naming the report is
raised. -/
def pipelineErrReportCheck (errLog : List ErrRow) : Except String Unit :=
  if errLog.isEmpty then .ok ()
  else .error "asset download error(s) were logged to err_report.csv"

/-! ## BuildIndex: `_create_asset_list_step` and `_asset_save_path` -/

/-- Decides whether `pat` occurs as a contiguous substring (Python's
`in` operator on strings), on character lists. -/
def isSubstrList (pat : List Char) : List Char → Bool
  | [] => pat.isEmpty
  | c :: rest => pat.isPrefixOf (c :: rest) || isSubstrList pat rest

/-- Python's `pat in s` on strings. -/
def isSubstr (pat s : String) : Bool :=
  isSubstrList pat.toList s.toList

/-- Drops everything up to and including the first occurrence of `pat`;
`none` when `pat` does not occur. -/
def afterFirst (pat : List Char) : List Char → Option (List Char)
  | [] => if pat.isEmpty then some [] else none
  | c :: rest =>
    if pat.isPrefixOf (c :: rest) then some ((c :: rest).drop pat.length)
    else afterFirst pat rest

/-- Embeds `urlparse(url).path` for the URLs this code sees: after
`scheme://` the netloc runs to the first `/`; the path then runs to the
first `?` or `#`.  URLs without `://` are treated as bare paths. -/
def urlPathChars (chars : List Char) : List Char :=
  let withoutSchemeNetloc :=
    match afterFirst "://".toList chars with
    | some rest => rest.dropWhile (fun c => c ≠ '/')
    | none => chars
  withoutSchemeNetloc.takeWhile (fun c => c ≠ '?' ∧ c ≠ '#')

/-- The final path component (`PurePath.name`): characters after the last
`/`. -/
def lastComponent (chars : List Char) : List Char :=
  (chars.reverse.takeWhile (fun c => c ≠ '/')).reverse

/-- Embeds `pathlib`'s `suffix` of a file name: the part from the last
dot, provided that dot is neither the first nor the last character. -/
def suffixOf (name : List Char) : List Char :=
  match name with
  | [] => []
  | _ :: rest =>
    let revAfter := rest.reverse.takeWhile (fun c => c ≠ '.')
    if rest.contains '.' && !revAfter.isEmpty then '.' :: revAfter.reverse
    else []

/-- Embeds the extension inference of `_asset_save_path`: the chain of
substring checks over the whole URL, falling back to
`Path(str(urlparse(url).path)).suffix`. -/
def extOf (url : String) : String :=
  if isSubstr ".tif" url then ".tif"
  else if isSubstr ".tiff" url then ".tiff"
  else if isSubstr ".json" url then ".json"
  else if isSubstr ".pdf" url then ".pdf"
  else if isSubstr ".png" url then ".png"
  else if isSubstr ".jpg" url then ".jpg"
  else if isSubstr ".jpeg" url then ".jpeg"
  else if isSubstr ".csv" url then ".csv"
  else (suffixOf (lastComponent (urlPathChars url.toList))).asString

/-- Embeds `_asset_save_path` (relative to the asset output directory, as
path segments): asserts `'.' in ext`, then places collection-level assets
under `{collection_id}/`, common item assets under
`{collection_id}/_common/`, and other item assets under
`{collection_id}/{item_id}/`. -/
def assetSavePathSegments (rec : AssetRec) : Except String (List String) :=
  let ext := extOf rec.assetUrl
  if !isSubstr "." ext then .error "File extension is not formatted correctly"
  else
    let assetFilename := rec.assetKey ++ ext
    match rec.itemId with
    | none => .ok [rec.collectionId, assetFilename]
    | some iid =>
      if rec.commonAsset then .ok [rec.collectionId, "_common", assetFilename]
      else .ok [rec.collectionId, iid, assetFilename]

/-- Embeds the record loop of `_create_asset_list_step` over
already-extracted raw records: each record's save path is computed (an
`AssertionError` propagates and aborts the whole step) and the record is
inserted with that path. -/
def createAssetListRecs : List AssetRec → Except String (List AssetRec)
  | [] => .ok []
  | r :: rest =>
    match assetSavePathSegments r with
    | .error e => .error e
    | .ok segs =>
      match createAssetListRecs rest with
      | .error e => .error e
      | .ok out =>
        .ok ({ r with assetSavePath := String.intercalate "/" segs } :: out)

/-! ## Helper lemmas about the scan/update machinery -/

/-- Pointwise description of the batched update: row `j` of the updated
table is row `j` of the input with `filtered` forced to true exactly when
its rowid `i + j` is in the update set. -/
theorem markAssetsFilteredFrom_get? (ids : List Nat) (assets : List AssetRec) :
    ∀ i j, (markAssetsFilteredFrom ids i assets).get? j =
      (assets.get? j).map
        (fun r => if ids.contains (i + j) then { r with filtered := true } else r) := by
  induction assets with
  | nil => intro i j; simp [markAssetsFilteredFrom]
  | cons r rs ih =>
    intro i j
    cases j with
    | zero => simp [markAssetsFilteredFrom]
    | succ j' =>
      have harith : i + (j' + 1) = (i + 1) + j' := by omega
      simp only [markAssetsFilteredFrom, List.get?, ih (i + 1) j', harith]

/-- The batched update with an empty rowid set is the identity. -/
theorem markAssetsFilteredFrom_nil (assets : List AssetRec) :
    ∀ i, markAssetsFilteredFrom [] i assets = assets := by
  induction assets with
  | nil => intro i; rfl
  | cons r rs ih => intro i; simp [markAssetsFilteredFrom, ih]

/-- The distinct-save-path count of `_fetch_unfiltered_count` is zero
exactly when no unfiltered row remains. -/
theorem fetchUnfilteredCount_eq_zero_iff (assets : List AssetRec) :
    fetchUnfilteredCount assets = 0 ↔
      assets.filter (fun r => r.filtered = false) = [] := by
  unfold fetchUnfilteredCount
  rw [List.length_eq_zero, List.dedup_eq_nil, List.map_eq_nil_iff]

/-- The per-row identifier decision keeps a row exactly when its
collection id is a filter key whose list is empty or contains the asset
key. -/
theorem rowFiltered_eq_false_iff (f : List (String × List String))
    (cid key : String) :
    rowFiltered f cid key = false ↔
      ∃ ks, filterLookup f cid = some ks ∧ (ks = [] ∨ key ∈ ks) := by
  unfold rowFiltered
  cases h : filterLookup f cid with
  | none => simp
  | some ks =>
    by_cases he : ks.isEmpty = true
    · have hnil : ks = [] := List.isEmpty_iff.mp he
      subst hnil
      simp
    · by_cases hc : ks.contains key = true
      · have hmem : key ∈ ks := List.elem_iff.mp hc
        simp [he, hc, hmem]
      · have hmem : ¬key ∈ ks := fun hm => hc (List.elem_iff.mpr hm)
        have hne : ¬ks = [] := fun h0 => he (by simp [h0])
        simp [he, hc, hmem, hne]

/-- Membership characterisation of the identifier-filter scan: rowid `k`
is collected exactly when the row at offset `k - i` is an unfiltered
item-level row whose identifier decision is `filtered`. -/
theorem mem_collectionScanIdsFrom (f : List (String × List String))
    (assets : List AssetRec) : ∀ i k,
    k ∈ collectionScanIdsFrom f i assets ↔
      ∃ j r, assets.get? j = some r ∧ k = i + j ∧ r.filtered = false ∧
        r.itemId.isSome = true ∧ rowFiltered f r.collectionId r.assetKey = true := by
  induction assets with
  | nil => intro i k; simp [collectionScanIdsFrom]
  | cons r rs ih =>
    intro i k
    constructor
    · intro hk
      simp only [collectionScanIdsFrom] at hk
      split at hk
      · rename_i hcond
        split at hk
        · rename_i hrf
          rcases List.mem_cons.mp hk with h1 | h2
          · exact ⟨0, r, rfl, by omega, hcond.1, hcond.2, hrf⟩
          · obtain ⟨j', r', hget, hkk, h3, h4, h5⟩ := (ih (i + 1) k).mp h2
            exact ⟨j' + 1, r', hget, by omega, h3, h4, h5⟩
        · obtain ⟨j', r', hget, hkk, h3, h4, h5⟩ := (ih (i + 1) k).mp hk
          exact ⟨j' + 1, r', hget, by omega, h3, h4, h5⟩
      · obtain ⟨j', r', hget, hkk, h3, h4, h5⟩ := (ih (i + 1) k).mp hk
        exact ⟨j' + 1, r', hget, by omega, h3, h4, h5⟩
    · rintro ⟨j, r', hget, hk, hf, hi, hrf⟩
      simp only [collectionScanIdsFrom]
      cases j with
      | zero =>
        simp only [List.get?] at hget
        cases hget
        have hk0 : k = i := by omega
        subst hk0
        rw [if_pos ⟨hf, hi⟩, if_pos hrf]
        exact List.mem_cons_self _ _
      | succ j' =>
        simp only [List.get?] at hget
        have hmem : k ∈ collectionScanIdsFrom f (i + 1) rs :=
          (ih (i + 1) k).mpr ⟨j', r', hget, by omega, hf, hi, hrf⟩
        split
        · split
          · exact List.mem_cons_of_mem _ hmem
          · exact hmem
        · exact hmem

/-- Rowids collected by a spatial scan always belong to item-level rows. -/
theorem mem_spatialScanIdsFrom (hit : String → Bool) (assets : List AssetRec) :
    ∀ i k, k ∈ spatialScanIdsFrom hit i assets →
      ∃ j r, assets.get? j = some r ∧ k = i + j ∧ r.itemId.isSome = true := by
  induction assets with
  | nil => intro i k hk; simp [spatialScanIdsFrom] at hk
  | cons r rs ih =>
    intro i k hk
    simp only [spatialScanIdsFrom] at hk
    have lift : k ∈ spatialScanIdsFrom hit (i + 1) rs →
        ∃ j r', (r :: rs).get? j = some r' ∧ k = i + j ∧ r'.itemId.isSome = true := by
      intro hmem
      obtain ⟨j', r', hget, hkk, hi'⟩ := ih (i + 1) k hmem
      exact ⟨j' + 1, r', hget, by omega, hi'⟩
    split at hk
    · rename_i hcond
      cases hb : r.bboxJson with
      | none => rw [hb] at hk; exact lift hk
      | some b =>
        rw [hb] at hk
        dsimp only at hk
        by_cases hhit : hit b = true
        · rw [if_pos hhit] at hk
          exact lift hk
        · rw [if_neg hhit] at hk
          rcases List.mem_cons.mp hk with h1 | h2
          · exact ⟨0, r, rfl, by omega, hcond.2⟩
          · exact lift h2
    · exact lift hk

/-- The only exception a temporal row decision can raise is the
`TypeError` from `dateutil.parser.parse(None)`. -/
theorem temporalRowCheck_error_eq (q : TQuery) (s a b : Option Int)
    (e : StageError) (h : temporalRowCheck q s a b = .error e) :
    e = .typeError := by
  unfold temporalRowCheck at h
  cases s with
  | some v => cases q <;> simp_all
  | none =>
    cases a with
    | none => simp_all [dateutilParse]
    | some va =>
      cases b with
      | none => simp_all [dateutilParse]
      | some vb => cases q <;> simp_all [dateutilParse]

/-- Rowids collected by a successful temporal scan always belong to
item-level rows. -/
theorem temporalScanIdsFrom_ok_mem (q : TQuery) (assets : List AssetRec) :
    ∀ i ids k, temporalScanIdsFrom q i assets = .ok ids → k ∈ ids →
      ∃ j r, assets.get? j = some r ∧ k = i + j ∧ r.itemId.isSome = true := by
  induction assets with
  | nil =>
    intro i ids k hok hk
    simp only [temporalScanIdsFrom] at hok
    cases hok
    simp at hk
  | cons r rs ih =>
    intro i ids k hok hk
    simp only [temporalScanIdsFrom] at hok
    have lift : ∀ ids', temporalScanIdsFrom q (i + 1) rs = .ok ids' → k ∈ ids' →
        ∃ j r', (r :: rs).get? j = some r' ∧ k = i + j ∧ r'.itemId.isSome = true := by
      intro ids' hok' hk'
      obtain ⟨j', r', hget, hkk, hi'⟩ := ih (i + 1) ids' k hok' hk'
      exact ⟨j' + 1, r', hget, by omega, hi'⟩
    split at hok
    · rename_i hcond
      cases hrc : temporalRowCheck q r.singleDatetime r.startDatetime r.endDatetime with
      | error e => rw [hrc] at hok; cases hok
      | ok dropped =>
        rw [hrc] at hok
        cases hrest : temporalScanIdsFrom q (i + 1) rs with
        | error e => rw [hrest] at hok; exact Except.noConfusion hok
        | ok rest =>
          rw [hrest] at hok
          simp only [Except.ok.injEq] at hok
          subst hok
          cases dropped with
          | true =>
            simp only [if_true] at hk
            rcases List.mem_cons.mp hk with h1 | h2
            · exact ⟨0, r, rfl, by omega, hcond.2⟩
            · exact lift rest hrest h2
          | false =>
            simp at hk
            exact lift rest hrest hk
    · exact lift ids hok hk

/-- A row scan that reaches a row with neither a single datetime nor a
start datetime raises the `TypeError` out of `dateutil.parser.parse`. -/
theorem temporalScanIdsFrom_error_of_null (q : TQuery) (assets : List AssetRec) :
    ∀ i j r, assets.get? j = some r → r.filtered = false →
      r.itemId.isSome = true → r.singleDatetime = none →
      r.startDatetime = none →
      temporalScanIdsFrom q i assets = .error .typeError := by
  induction assets with
  | nil => intro i j r hget; simp at hget
  | cons r0 rs ih =>
    intro i j r hget hf hi hs hst
    cases j with
    | zero =>
      simp only [List.get?] at hget
      cases hget
      simp only [temporalScanIdsFrom, if_pos (And.intro hf hi)]
      rw [hs, hst]
      simp [temporalRowCheck, dateutilParse, Except.bind]
    | succ j' =>
      simp only [List.get?] at hget
      have hrec : temporalScanIdsFrom q (i + 1) rs = .error .typeError :=
        ih (i + 1) j' r hget hf hi hs hst
      simp only [temporalScanIdsFrom]
      split
      · cases hrc : temporalRowCheck q r0.singleDatetime r0.startDatetime r0.endDatetime with
        | error e =>
          have he := temporalRowCheck_error_eq _ _ _ _ _ hrc
          subst he
          rfl
        | ok dropped =>
          rw [hrec]
      · exact hrec

/-- Every unfiltered row's save path survives the download-list
deduplication of `_asset_download_step`. -/
theorem mem_buildAssetListAux (p : String) :
    ∀ (l : List AssetRec) (seen : List String),
      (∃ r ∈ l, r.assetSavePath = p) → ¬p ∈ seen →
      p ∈ (buildAssetListAux seen l).map (fun a => a.assetSavePath) := by
  intro l
  induction l with
  | nil => intro seen h; simp at h
  | cons r rs ih =>
    intro seen hex hseen
    obtain ⟨r', hr', hp⟩ := hex
    simp only [buildAssetListAux]
    by_cases hc : seen.contains r.assetSavePath = true
    · rw [if_pos hc]
      have hmem : r.assetSavePath ∈ seen := List.elem_iff.mp hc
      have hr's : r' ∈ rs := by
        rcases List.mem_cons.mp hr' with h1 | h2
        · subst h1; exact absurd (hp ▸ hmem) hseen
        · exact h2
      exact ih seen ⟨r', hr's, hp⟩ hseen
    · rw [if_neg hc]
      by_cases hph : p = r.assetSavePath
      · simp [hph]
      · have hr's : r' ∈ rs := by
          rcases List.mem_cons.mp hr' with h1 | h2
          · exfalso; apply hph; rw [← hp, h1]
          · exact h2
        have hseen' : ¬p ∈ (r.assetSavePath :: seen) := by
          intro hm
          rcases List.mem_cons.mp hm with h1 | h2
          · exact hph h1
          · exact hseen h2
        have := ih (r.assetSavePath :: seen) ⟨r', hr's, hp⟩ hseen'
        simp only [List.map_cons]
        exact List.mem_cons_of_mem _ this

/-- An unfiltered record's save path appears in the download work list. -/
theorem buildAssetList_savePath_mem (assets : List AssetRec) (r : AssetRec)
    (hmem : r ∈ assets) (hf : r.filtered = false) :
    r.assetSavePath ∈ (buildAssetList assets).map (fun a => a.assetSavePath) := by
  unfold buildAssetList
  apply mem_buildAssetListAux
  · refine ⟨r, ?_, rfl⟩
    rw [List.mem_filter]
    exact ⟨hmem, by simp [hf]⟩
  · simp

/-! ## Claim theorems for the filter pipeline -/

/-- Claim C4 counterexample: with `collection_filter = {"colA": ["B02","B03"]}`,
a collection-level asset record of `colA` whose key `documentation` is not
in the key list survives the identifier filter stage unfiltered — the
stage's scan is restricted to `item_id IS NOT NULL` — although the claim's
biconditional requires it to be filtered. -/
theorem c4_identifier_filter_counterexample :
    filterCollectionsStep (some [("colA", ["B02", "B03"])])
        [⟨"colA", none, "documentation", "u", "colA/documentation.pdf",
          false, none, none, none, none, false⟩] =
      .ok [⟨"colA", none, "documentation", "u", "colA/documentation.pdf",
          false, none, none, none, none, false⟩] ∧
    filterLookup [("colA", ["B02", "B03"])] "colA" = some ["B02", "B03"] ∧
    ("documentation" ∈ ["B02", "B03"]) = False := by
  refine ⟨rfl, rfl, ?_⟩
  simp

/-- Claim C4 amended: after the identifier filter stage, an unfiltered
item-level record stays unfiltered iff its collection id is a filter key
whose asset-key list is empty or contains the record's key; collection-level
records (null `item_id`) are outside the stage's scan and are never marked,
but collection-level records of collections absent from a non-empty filter
were already not inserted by `_handle_collection`. -/
theorem c4_identifier_filter_behavior (f : List (String × List String))
    (assets : List AssetRec) (j : Nat) (r : AssetRec)
    (hr : assets.get? j = some r) (hf : r.filtered = false) :
    (r.itemId.isSome = true →
      ((((markAssetsFiltered (collectionScanIds f assets) assets).get? j).map
          (fun x => x.filtered)) = some false ↔
        ∃ ks, filterLookup f r.collectionId = some ks ∧
          (ks = [] ∨ r.assetKey ∈ ks))) ∧
    (r.itemId = none →
      (markAssetsFiltered (collectionScanIds f assets) assets).get? j = some r) ∧
    (∀ cid, ¬f.isEmpty = true → filterLookup f cid = none →
      collectionInserted (some f) cid = false) := by
  have hmark := markAssetsFilteredFrom_get? (collectionScanIds f assets) assets 0 j
  rw [Nat.zero_add] at hmark
  refine ⟨?_, ?_, ?_⟩
  · intro hitem
    unfold markAssetsFiltered
    rw [hmark, hr]
    by_cases hcont : (collectionScanIds f assets).contains j = true
    · have hj : j ∈ collectionScanIds f assets := List.elem_iff.mp hcont
      obtain ⟨j', r', hget', hkk, hf', hi', hrf'⟩ :=
        (mem_collectionScanIdsFrom f assets 0 j).mp hj
      have hjj : j' = j := by omega
      subst hjj
      rw [hr] at hget'
      cases hget'
      rw [hcont]
      constructor
      · intro hcontra; simp at hcontra
      · rintro hex
        have hrf0 := (rowFiltered_eq_false_iff f r.collectionId r.assetKey).mpr hex
        rw [hrf'] at hrf0
        cases hrf0
    · have hrf : rowFiltered f r.collectionId r.assetKey = false := by
        by_contra hne
        have hrf1 : rowFiltered f r.collectionId r.assetKey = true := by
          cases h0 : rowFiltered f r.collectionId r.assetKey
          · exact absurd h0 hne
          · rfl
        have hj : j ∈ collectionScanIds f assets :=
          (mem_collectionScanIdsFrom f assets 0 j).mpr
            ⟨j, r, hr, by omega, hf, hitem, hrf1⟩
        exact hcont (List.elem_iff.mpr hj)
      have hc0 : (collectionScanIds f assets).contains j = false := by
        cases h0 : (collectionScanIds f assets).contains j
        · rfl
        · exact absurd h0 hcont
      rw [hc0]
      simp only [Bool.false_eq_true, if_false, Option.map_some']
      rw [hf]
      simp only [true_iff, Option.some.injEq]
      exact (rowFiltered_eq_false_iff f r.collectionId r.assetKey).mp hrf
  · intro hnull
    unfold markAssetsFiltered
    rw [hmark, hr]
    have hc0 : (collectionScanIds f assets).contains j = false := by
      cases h0 : (collectionScanIds f assets).contains j
      · rfl
      · exfalso
        have hj : j ∈ collectionScanIds f assets := List.elem_iff.mp h0
        obtain ⟨j', r', hget', hkk, _, hi', _⟩ :=
          (mem_collectionScanIdsFrom f assets 0 j).mp hj
        have hjj : j' = j := by omega
        subst hjj
        rw [hr] at hget'
        cases hget'
        rw [hnull] at hi'
        simp at hi'
    rw [hc0]
    simp
  · intro cid hne hnone
    simp [collectionInserted, hne, hnone]

/-- Concrete instance of C4 amended: an unfiltered item-level `colA` asset
with key `B02` stays unfiltered under `{"colA": ["B02","B03"]}`. -/
theorem c4_identifier_filter_behavior_witness :
    (((markAssetsFiltered
        (collectionScanIds [("colA", ["B02", "B03"])]
          [⟨"colA", some "item1", "B02", "u", "p", false, none, none, none,
            none, false⟩])
        [⟨"colA", some "item1", "B02", "u", "p", false, none, none, none,
          none, false⟩]).get? 0).map (fun x => x.filtered)) = some false :=
  ((c4_identifier_filter_behavior [("colA", ["B02", "B03"])]
      [⟨"colA", some "item1", "B02", "u", "p", false, none, none, none,
        none, false⟩] 0
      ⟨"colA", some "item1", "B02", "u", "p", false, none, none, none,
        none, false⟩ rfl rfl).1 rfl).mpr
    ⟨["B02", "B03"], rfl, Or.inr (by simp)⟩

/-- Claim C5 (code bug): an item-level asset row whose `single_datetime`,
`start_datetime` and `end_datetime` are all null makes the temporal filter
stage raise the `TypeError` from `dateutil.parser.parse(None)` — the
stage aborts instead of skipping the record with a warning; the source's
`if not start or not end` guard meant to skip such rows is unreachable. -/
theorem c5_null_datetime_raises (q : TQuery) (assets : List AssetRec)
    (j : Nat) (r : AssetRec) (hr : assets.get? j = some r)
    (hf : r.filtered = false) (hi : r.itemId.isSome = true)
    (h1 : r.singleDatetime = none) (h2 : r.startDatetime = none)
    (h3 : r.endDatetime = none) :
    temporalRowCheck q r.singleDatetime r.startDatetime r.endDatetime =
      .error .typeError ∧
    temporalScanIds q assets = .error .typeError ∧
    filterTemporalStep (some q) assets = .error .typeError := by
  have hscan : temporalScanIds q assets = .error .typeError :=
    temporalScanIdsFrom_error_of_null q assets 0 j r hr hf hi h1 h2
  refine ⟨?_, hscan, ?_⟩
  · rw [h1, h2, h3]
    rfl
  · simp only [filterTemporalStep]
    rw [hscan]

/-- Concrete instance of C5: a one-row index whose row has no datetime
fields aborts the temporal stage with the parser `TypeError`. -/
theorem c5_null_datetime_raises_witness :
    temporalRowCheck (.instant 0) none none none = .error .typeError ∧
    temporalScanIds (.instant 0)
        [⟨"colA", some "item1", "B02", "u", "p", false, none, none, none,
          none, false⟩] = .error .typeError ∧
    filterTemporalStep (some (.instant 0))
        [⟨"colA", some "item1", "B02", "u", "p", false, none, none, none,
          none, false⟩] = .error .typeError :=
  c5_null_datetime_raises (.instant 0)
    [⟨"colA", some "item1", "B02", "u", "p", false, none, none, none,
      none, false⟩] 0
    ⟨"colA", some "item1", "B02", "u", "p", false, none, none, none,
      none, false⟩ rfl rfl rfl rfl rfl rfl

/-- The zero-assets check shared by all four stages, in terms of "no
unfiltered row remains". -/
theorem zeroCheck_behavior (out : List AssetRec) (e : StageError) :
    ((if fetchUnfilteredCount out = 0 then (Except.error e : Except StageError (List AssetRec))
        else .ok out) = .error e ↔
      out.filter (fun r => r.filtered = false) = []) ∧
    (out.filter (fun r => r.filtered = false) ≠ [] →
      (if fetchUnfilteredCount out = 0 then (Except.error e : Except StageError (List AssetRec))
        else .ok out) = .ok out) := by
  by_cases h : fetchUnfilteredCount out = 0
  · rw [if_pos h]
    have hnil := (fetchUnfilteredCount_eq_zero_iff out).mp h
    exact ⟨⟨fun _ => hnil, fun _ => rfl⟩, fun hne => absurd hnil hne⟩
  · rw [if_neg h]
    have hne : out.filter (fun r => r.filtered = false) ≠ [] :=
      fun hh => h ((fetchUnfilteredCount_eq_zero_iff out).mpr hh)
    exact ⟨⟨fun hc => Except.noConfusion hc, fun hh => absurd hh hne⟩,
      fun _ => rfl⟩

/-- Claim C6: each configured filter stage raises the zero-assets
`RuntimeError` naming itself exactly when its batched update leaves no
unfiltered row, and completes normally (returning the updated table)
whenever at least one unfiltered row remains; the four stage messages are
pairwise distinct. -/
theorem c6_filter_exhaustion_check (fl : List (String × List String))
    (q : TQuery) (hitB hitI : String → Bool) (assets : List AssetRec)
    (ids : List Nat) (hq : temporalScanIds q assets = .ok ids) :
    (filterCollectionsStep (some fl) assets = .error (.zeroAssets .collections) ↔
      (markAssetsFiltered (collectionScanIds fl assets) assets).filter
        (fun r => r.filtered = false) = []) ∧
    ((markAssetsFiltered (collectionScanIds fl assets) assets).filter
        (fun r => r.filtered = false) ≠ [] →
      filterCollectionsStep (some fl) assets =
        .ok (markAssetsFiltered (collectionScanIds fl assets) assets)) ∧
    (filterTemporalStep (some q) assets = .error (.zeroAssets .temporal) ↔
      (markAssetsFiltered ids assets).filter (fun r => r.filtered = false) = []) ∧
    ((markAssetsFiltered ids assets).filter (fun r => r.filtered = false) ≠ [] →
      filterTemporalStep (some q) assets = .ok (markAssetsFiltered ids assets)) ∧
    (filterBboxStep (some hitB) assets = .error (.zeroAssets .bbox) ↔
      (markAssetsFiltered (spatialScanIds hitB assets) assets).filter
        (fun r => r.filtered = false) = []) ∧
    ((markAssetsFiltered (spatialScanIds hitB assets) assets).filter
        (fun r => r.filtered = false) ≠ [] →
      filterBboxStep (some hitB) assets =
        .ok (markAssetsFiltered (spatialScanIds hitB assets) assets)) ∧
    (filterIntersectsStep (some hitI) assets = .error (.zeroAssets .intersects) ↔
      (markAssetsFiltered (spatialScanIds hitI assets) assets).filter
        (fun r => r.filtered = false) = []) ∧
    ((markAssetsFiltered (spatialScanIds hitI assets) assets).filter
        (fun r => r.filtered = false) ≠ [] →
      filterIntersectsStep (some hitI) assets =
        .ok (markAssetsFiltered (spatialScanIds hitI assets) assets)) ∧
    (∀ s1 s2 : StageName, stageErrorMessage s1 = stageErrorMessage s2 → s1 = s2) := by
  have htemp : filterTemporalStep (some q) assets =
      (if fetchUnfilteredCount (markAssetsFiltered ids assets) = 0 then
        (Except.error (.zeroAssets .temporal) : Except StageError (List AssetRec))
       else .ok (markAssetsFiltered ids assets)) := by
    simp only [filterTemporalStep]
    rw [hq]
  refine ⟨(zeroCheck_behavior _ _).1, (zeroCheck_behavior _ _).2, ?_, ?_,
    (zeroCheck_behavior _ _).1, (zeroCheck_behavior _ _).2,
    (zeroCheck_behavior _ _).1, (zeroCheck_behavior _ _).2, ?_⟩
  · rw [htemp]; exact (zeroCheck_behavior _ _).1
  · rw [htemp]; exact (zeroCheck_behavior _ _).2
  · intro s1 s2 h
    cases s1 <;> cases s2 <;>
      first
        | rfl
        | exact absurd h (by decide)

/-- Concrete instance of C6: a surviving row makes the identifier and
temporal stages complete normally. -/
theorem c6_filter_exhaustion_check_witness :
    filterCollectionsStep (some [("colA", [])])
        [⟨"colA", some "item1", "B02", "u", "p", false, some "b", some 0,
          none, none, false⟩] =
      .ok (markAssetsFiltered
        (collectionScanIds [("colA", [])]
          [⟨"colA", some "item1", "B02", "u", "p", false, some "b", some 0,
            none, none, false⟩])
        [⟨"colA", some "item1", "B02", "u", "p", false, some "b", some 0,
          none, none, false⟩]) ∧
    filterTemporalStep (some (.instant 0))
        [⟨"colA", some "item1", "B02", "u", "p", false, some "b", some 0,
          none, none, false⟩] =
      .ok (markAssetsFiltered []
        [⟨"colA", some "item1", "B02", "u", "p", false, some "b", some 0,
          none, none, false⟩]) := by
  have h := c6_filter_exhaustion_check [("colA", [])] (.instant 0)
    (fun _ => true) (fun _ => true)
    [⟨"colA", some "item1", "B02", "u", "p", false, some "b", some 0,
      none, none, false⟩] [] rfl
  exact ⟨h.2.1 (by decide), h.2.2.2.1 (by decide)⟩

/-- Every failing asset contributes its own error row. -/
theorem assetDownloadErrors_mem_of_failure (dsId : String)
    (outcome : AssetRec → Option String) :
    ∀ l : List AssetRec, ∀ a ∈ l, ∀ e, outcome a = some e →
      (⟨e, dsId, a.collectionId, a.itemId, a.assetKey, a.assetUrl⟩ : ErrRow) ∈
        assetDownloadErrors dsId outcome l := by
  intro l
  induction l with
  | nil => intro a ha; simp at ha
  | cons a0 rest ih =>
    intro a ha e he
    rcases List.mem_cons.mp ha with hh | ht
    · subst hh
      simp only [assetDownloadErrors]
      rw [he]
      exact List.mem_cons_self _ _
    · simp only [assetDownloadErrors]
      cases h0 : outcome a0 with
      | some e0 => exact List.mem_cons_of_mem _ (ih a ht e he)
      | none => exact ih a ht e he

/-- Every error row comes from a failing asset and carries its fields. -/
theorem assetDownloadErrors_mem_inv (dsId : String)
    (outcome : AssetRec → Option String) :
    ∀ l : List AssetRec, ∀ row ∈ assetDownloadErrors dsId outcome l,
      ∃ a, a ∈ l ∧ outcome a = some row.error ∧ row.datasetId = dsId ∧
        row.collectionId = a.collectionId ∧ row.itemId = a.itemId ∧
        row.assetKey = a.assetKey ∧ row.assetUrl = a.assetUrl := by
  intro l
  induction l with
  | nil => intro row hrow; simp [assetDownloadErrors] at hrow
  | cons a0 rest ih =>
    intro row hrow
    simp only [assetDownloadErrors] at hrow
    cases h0 : outcome a0 with
    | some e0 =>
      rw [h0] at hrow
      rcases List.mem_cons.mp hrow with hh | ht
      · subst hh
        exact ⟨a0, List.mem_cons_self _ _, h0, rfl, rfl, rfl, rfl, rfl⟩
      · obtain ⟨a, ha, rest'⟩ := ih row ht
        exact ⟨a, List.mem_cons_of_mem _ ha, rest'⟩
    | none =>
      rw [h0] at hrow
      obtain ⟨a, ha, rest'⟩ := ih row hrow
      exact ⟨a, List.mem_cons_of_mem _ ha, rest'⟩

/-- One error row per failing asset, and none for successes. -/
theorem assetDownloadErrors_length (dsId : String)
    (outcome : AssetRec → Option String) :
    ∀ l : List AssetRec, (assetDownloadErrors dsId outcome l).length =
      (l.filter (fun a => (outcome a).isSome)).length := by
  intro l
  induction l with
  | nil => rfl
  | cons a0 rest ih =>
    simp only [assetDownloadErrors, List.filter]
    cases h0 : outcome a0 with
    | some e0 => simp [ih]
    | none => simp [ih]

/-- Claim C7: during the download stage every individual asset failure is
caught and appended as one error-report row carrying the error text,
dataset id, collection id, item id, asset key and asset url — never
aborting the remaining downloads (there is exactly one row per failing
asset) — and the pipeline epilogue raises iff at least one row was
recorded, i.e. iff some asset failed. -/
theorem c7_download_error_reporting (dsId : String)
    (outcome : AssetRec → Option String) (l : List AssetRec) :
    (∀ a ∈ l, ∀ e, outcome a = some e →
      (⟨e, dsId, a.collectionId, a.itemId, a.assetKey, a.assetUrl⟩ : ErrRow) ∈
        assetDownloadErrors dsId outcome l) ∧
    (∀ row ∈ assetDownloadErrors dsId outcome l,
      ∃ a, a ∈ l ∧ outcome a = some row.error ∧ row.datasetId = dsId ∧
        row.collectionId = a.collectionId ∧ row.itemId = a.itemId ∧
        row.assetKey = a.assetKey ∧ row.assetUrl = a.assetUrl) ∧
    ((assetDownloadErrors dsId outcome l).length =
      (l.filter (fun a => (outcome a).isSome)).length) ∧
    (pipelineErrReportCheck (assetDownloadErrors dsId outcome l) = .ok () ↔
      ∀ a ∈ l, outcome a = none) := by
  refine ⟨assetDownloadErrors_mem_of_failure dsId outcome l,
    assetDownloadErrors_mem_inv dsId outcome l,
    assetDownloadErrors_length dsId outcome l, ?_⟩
  unfold pipelineErrReportCheck
  by_cases h : (assetDownloadErrors dsId outcome l).isEmpty = true
  · rw [if_pos h]
    have hnil : assetDownloadErrors dsId outcome l = [] :=
      List.isEmpty_iff.mp h
    have hlen := assetDownloadErrors_length dsId outcome l
    rw [hnil] at hlen
    have hfilter : l.filter (fun a => (outcome a).isSome) = [] :=
      List.length_eq_zero.mp hlen.symm
    constructor
    · intro _ a ha
      have hns := List.filter_eq_nil_iff.mp hfilter a ha
      cases hcase : outcome a with
      | none => rfl
      | some e => rw [hcase] at hns; simp at hns
    · intro _; rfl
  · rw [if_neg h]
    constructor
    · intro hc; exact Except.noConfusion hc
    · intro hall
      exfalso
      apply h
      rw [List.isEmpty_iff]
      have hfilter : l.filter (fun a => (outcome a).isSome) = [] := by
        rw [List.filter_eq_nil_iff]
        intro a ha
        simp [hall a ha]
      have hlen := assetDownloadErrors_length dsId outcome l
      rw [hfilter] at hlen
      exact List.length_eq_zero.mp hlen

/-- Concrete instance of C7: with one failing and one succeeding asset,
the failing asset's row is recorded and the epilogue raises. -/
theorem c7_download_error_reporting_witness :
    (⟨"404", "ds", "colA", some "item1", "B02", "bad"⟩ : ErrRow) ∈
      assetDownloadErrors "ds"
        (fun a => if a.assetUrl = "bad" then some "404" else none)
        [⟨"colA", some "item1", "B02", "bad", "p1", false, none, none, none,
          none, false⟩,
         ⟨"colA", some "item2", "B02", "good", "p2", false, none, none, none,
          none, false⟩] :=
  (c7_download_error_reporting "ds"
      (fun a => if a.assetUrl = "bad" then some "404" else none)
      [⟨"colA", some "item1", "B02", "bad", "p1", false, none, none, none,
        none, false⟩,
       ⟨"colA", some "item2", "B02", "good", "p2", false, none, none, none,
        none, false⟩]).1
    ⟨"colA", some "item1", "B02", "bad", "p1", false, none, none, none,
      none, false⟩ (List.mem_cons_self _ _) "404" (by decide)

/-- Claim C8 counterexample: `_mark_assets_filtered` with an empty rowid
set is a successful no-op (sqlite accepts the empty `IN (  )` list, which
matches no row), and an identifier stage that decides to drop zero rows
completes normally instead of raising a database error. -/
theorem c8_empty_update_counterexample :
    markAssetsFiltered []
        [⟨"colA", some "item1", "B02", "u", "pA", false, none, none, none,
          none, false⟩] =
      [⟨"colA", some "item1", "B02", "u", "pA", false, none, none, none,
        none, false⟩] ∧
    filterCollectionsStep (some [("colA", [])])
        [⟨"colA", some "item1", "B02", "u", "pA", false, none, none, none,
          none, false⟩] =
      .ok [⟨"colA", some "item1", "B02", "u", "pA", false, none, none, none,
        none, false⟩] :=
  ⟨rfl, rfl⟩

/-- Claim C8 amended: the SQL `UPDATE ... WHERE rowid in (  )` generated
for an empty rowid set is valid sqlite — the empty `IN` list matches no
row — so the batched update is a no-op and a configured stage whose scan
drops zero rows completes normally, still subject to the zero-remaining
check. -/
theorem c8_empty_update_noop (assets : List AssetRec)
    (fl : List (String × List String))
    (h1 : collectionScanIds fl assets = [])
    (h2 : assets.filter (fun r => r.filtered = false) ≠ []) :
    markAssetsFiltered [] assets = assets ∧
    filterCollectionsStep (some fl) assets = .ok assets := by
  have hmark : markAssetsFiltered [] assets = assets :=
    markAssetsFilteredFrom_nil assets 0
  refine ⟨hmark, ?_⟩
  simp only [filterCollectionsStep]
  rw [h1, hmark]
  rw [if_neg (fun h0 => h2 ((fetchUnfilteredCount_eq_zero_iff assets).mp h0))]

/-- Concrete instance of C8 amended: a one-row `colB` table under the
filter `{"colB": []}` drops nothing and the stage returns it unchanged. -/
theorem c8_empty_update_noop_witness :
    markAssetsFiltered []
        [⟨"colB", some "item9", "B04", "u", "pB", false, none, none, none,
          none, false⟩] =
      [⟨"colB", some "item9", "B04", "u", "pB", false, none, none, none,
        none, false⟩] ∧
    filterCollectionsStep (some [("colB", [])])
        [⟨"colB", some "item9", "B04", "u", "pB", false, none, none, none,
          none, false⟩] =
      .ok [⟨"colB", some "item9", "B04", "u", "pB", false, none, none, none,
        none, false⟩] :=
  c8_empty_update_noop
    [⟨"colB", some "item9", "B04", "u", "pB", false, none, none, none,
      none, false⟩] [("colB", [])] rfl (by decide)

/-- A row whose rowid is outside the update set is unchanged by the
batched update. -/
theorem markAssetsFiltered_get?_of_not_mem (ids : List Nat)
    (assets : List AssetRec) (j : Nat) (r : AssetRec)
    (hr : assets.get? j = some r) (hnot : ¬j ∈ ids) :
    (markAssetsFiltered ids assets).get? j = some r := by
  unfold markAssetsFiltered
  rw [markAssetsFilteredFrom_get? ids assets 0 j, hr, Nat.zero_add]
  have hc : ids.contains j = false := by
    cases h0 : ids.contains j
    · rfl
    · exact absurd (List.elem_iff.mp h0) hnot
  rw [hc]
  simp

/-- Claim C9: every filter stage's scan is restricted to rows with a
non-null `item_id`, so a collection-level asset record is never marked
filtered by the identifier, temporal, bbox or intersects stage, and (still
unfiltered) its save path reaches the deduplicated download work list. -/
theorem c9_collection_assets_reach_download (f : List (String × List String))
    (q : TQuery) (hitB hitI : String → Bool) (ids : List Nat)
    (assets : List AssetRec) (j : Nat) (r : AssetRec)
    (hr : assets.get? j = some r) (hnull : r.itemId = none) :
    (markAssetsFiltered (collectionScanIds f assets) assets).get? j = some r ∧
    (temporalScanIds q assets = .ok ids →
      (markAssetsFiltered ids assets).get? j = some r) ∧
    (markAssetsFiltered (spatialScanIds hitB assets) assets).get? j = some r ∧
    (markAssetsFiltered (spatialScanIds hitI assets) assets).get? j = some r ∧
    (r.filtered = false →
      r.assetSavePath ∈ (buildAssetList assets).map (fun a => a.assetSavePath)) := by
  have hspatial : ∀ hit : String → Bool,
      (markAssetsFiltered (spatialScanIds hit assets) assets).get? j = some r := by
    intro hit
    apply markAssetsFiltered_get?_of_not_mem _ _ _ _ hr
    intro hj
    obtain ⟨j', r', hget', hkk, hi'⟩ := mem_spatialScanIdsFrom hit assets 0 j hj
    have hjj : j' = j := by omega
    subst hjj
    rw [hr] at hget'
    cases hget'
    rw [hnull] at hi'
    simp at hi'
  refine ⟨?_, ?_, hspatial hitB, hspatial hitI, ?_⟩
  · apply markAssetsFiltered_get?_of_not_mem _ _ _ _ hr
    intro hj
    obtain ⟨j', r', hget', hkk, _, hi', _⟩ :=
      (mem_collectionScanIdsFrom f assets 0 j).mp hj
    have hjj : j' = j := by omega
    subst hjj
    rw [hr] at hget'
    cases hget'
    rw [hnull] at hi'
    simp at hi'
  · intro hok
    apply markAssetsFiltered_get?_of_not_mem _ _ _ _ hr
    intro hj
    obtain ⟨j', r', hget', hkk, hi'⟩ :=
      temporalScanIdsFrom_ok_mem q assets 0 ids j hok hj
    have hjj : j' = j := by omega
    subst hjj
    rw [hr] at hget'
    cases hget'
    rw [hnull] at hi'
    simp at hi'
  · intro hf
    exact buildAssetList_savePath_mem assets r (List.get?_mem hr) hf

/-- Concrete instance of C9: a collection-level `colA` record survives the
identifier and temporal stages and its save path is scheduled. -/
theorem c9_collection_assets_reach_download_witness :
    (markAssetsFiltered
        (collectionScanIds [("colA", ["B02"])]
          [⟨"colA", none, "documentation", "u", "colA/documentation.pdf",
            false, none, none, none, none, false⟩])
        [⟨"colA", none, "documentation", "u", "colA/documentation.pdf",
          false, none, none, none, none, false⟩]).get? 0 =
      some ⟨"colA", none, "documentation", "u", "colA/documentation.pdf",
        false, none, none, none, none, false⟩ ∧
    (markAssetsFiltered []
        [⟨"colA", none, "documentation", "u", "colA/documentation.pdf",
          false, none, none, none, none, false⟩]).get? 0 =
      some ⟨"colA", none, "documentation", "u", "colA/documentation.pdf",
        false, none, none, none, none, false⟩ ∧
    "colA/documentation.pdf" ∈
      (buildAssetList
        [⟨"colA", none, "documentation", "u", "colA/documentation.pdf",
          false, none, none, none, none, false⟩]).map
        (fun a => a.assetSavePath) := by
  have h := c9_collection_assets_reach_download [("colA", ["B02"])]
    (.instant 0) (fun _ => true) (fun _ => true) []
    [⟨"colA", none, "documentation", "u", "colA/documentation.pdf",
      false, none, none, none, none, false⟩] 0
    ⟨"colA", none, "documentation", "u", "colA/documentation.pdf",
      false, none, none, none, none, false⟩ rfl rfl
  exact ⟨h.1, h.2.1 rfl, h.2.2.2.2 rfl⟩

/-- A record whose save-path computation raises aborts the whole
`_create_asset_list_step` walk. -/
theorem createAssetListRecs_error_of_mem (rec : AssetRec) (e : String)
    (he : assetSavePathSegments rec = .error e) :
    ∀ recs, rec ∈ recs → ∀ out, createAssetListRecs recs ≠ .ok out := by
  intro recs
  induction recs with
  | nil => intro hm; simp at hm
  | cons r rest ih =>
    intro hm out hok
    simp only [createAssetListRecs] at hok
    rcases List.mem_cons.mp hm with hh | ht
    · subst hh
      rw [he] at hok
      exact Except.noConfusion hok
    · cases hs : assetSavePathSegments r with
      | error e' => rw [hs] at hok; exact Except.noConfusion hok
      | ok segs =>
        rw [hs] at hok
        cases hrest : createAssetListRecs rest with
        | error e' => rw [hrest] at hok; exact Except.noConfusion hok
        | ok out' => exact ih ht out' hrest

/-- Claim C10: an asset whose URL contains none of the eight known
extension substrings and whose URL path has no dotted suffix fails the
`assert '.' in ext` in `_asset_save_path`, and that `AssertionError`
aborts the entire index-construction step. -/
theorem c10_missing_extension_aborts (url : String)
    (h1 : isSubstr ".tif" url = false) (h2 : isSubstr ".tiff" url = false)
    (h3 : isSubstr ".json" url = false) (h4 : isSubstr ".pdf" url = false)
    (h5 : isSubstr ".png" url = false) (h6 : isSubstr ".jpg" url = false)
    (h7 : isSubstr ".jpeg" url = false) (h8 : isSubstr ".csv" url = false)
    (h9 : isSubstr "."
        ((suffixOf (lastComponent (urlPathChars url.toList))).asString) = false)
    (rec : AssetRec) (recs : List AssetRec) (hu : rec.assetUrl = url)
    (hm : rec ∈ recs) :
    assetSavePathSegments rec =
      .error "File extension is not formatted correctly" ∧
    ∀ out, createAssetListRecs recs ≠ .ok out := by
  have hext : extOf url =
      (suffixOf (lastComponent (urlPathChars url.toList))).asString := by
    simp only [extOf, h1, h2, h3, h4, h5, h6, h7, h8, Bool.false_eq_true,
      if_false]
  have hseg : assetSavePathSegments rec =
      .error "File extension is not formatted correctly" := by
    simp only [assetSavePathSegments, hu, hext, h9, Bool.not_false, if_true]
  exact ⟨hseg, createAssetListRecs_error_of_mem rec _ hseg recs hm⟩

/-- Concrete instance of C10: the extension-less URL
`https://example.com/data/asset` makes the save-path computation raise. -/
theorem c10_missing_extension_aborts_witness :
    assetSavePathSegments
        ⟨"colA", none, "documentation", "https://example.com/data/asset",
          "", false, none, none, none, none, false⟩ =
      .error "File extension is not formatted correctly" :=
  (c10_missing_extension_aborts "https://example.com/data/asset"
      (by decide) (by decide) (by decide) (by decide) (by decide) (by decide)
      (by decide) (by decide) (by decide)
      ⟨"colA", none, "documentation", "https://example.com/data/asset",
        "", false, none, none, none, none, false⟩
      [⟨"colA", none, "documentation", "https://example.com/data/asset",
        "", false, none, none, none, none, false⟩]
      rfl (List.mem_singleton.mpr rfl)).1
